import Mathlib

/-
  Verification of the voyant travel-assistant turn pipeline.

  The development shallowly embeds the slot-memory store
  (src/core/slot_memory.ts), the turn-pipeline heuristics of
  src/core/graph.ts (context-switch detection, season-conflict
  detection, the consent-state "clear" call), the parser guard of
  src/core/parsers.ts, the clarifier fallback, and the Tavily search
  wrapper (src/tools/tavily_search.ts).  JavaScript objects
  (Record<string, string>) are embedded as association lists with
  first-match lookup and in-place overwrite, matching JS object key
  semantics (keys are unique in a JS object); the process-wide
  Map<string, SlotState> is embedded as a function from thread id to
  an optional state, matching Map get/set/delete point-wise semantics.
  Asynchronous calls to LLMs / NER models / HTTP SDKs are embedded as
  explicit oracle parameters holding the outcome of the call.
-/

namespace Voyant

/-! ## JS record embedding (Record<string, string>) -/

/-- JS String.prototype.trim: strip leading and trailing whitespace.
(Lean's own String.trim is defined by well-founded recursion over byte
positions and does not reduce, so the embedding defines trimming
directly over the character list.) -/
def jsTrim (s : String) : String :=
  (((s.data.dropWhile Char.isWhitespace).reverse.dropWhile Char.isWhitespace).reverse).asString

/-- JS String.prototype.toLowerCase, per code point. -/
def lowerStr (s : String) : String :=
  (s.data.map Char.toLower).asString

/-- Lookup in a JS object embedded as an association list (keys unique,
first match wins). -/
def recLookup : List (String × String) → String → Option String
  | [], _ => none
  | (k, v) :: rest, key => if k = key then some v else recLookup rest key

/-- JS `obj[k] = v`: overwrite in place if the key exists, else append. -/
def setKey : List (String × String) → String → String → List (String × String)
  | [], key, val => [(key, val)]
  | (k, v) :: rest, key, val =>
      if k = key then (k, val) :: rest else (k, v) :: setKey rest key val

/-- JS truthiness of an optional string (`undefined` and `''` are falsy). -/
def jsTruthyStr : Option String → Bool
  | none => false
  | some s => !(s == "")

/-! ## slot_memory.ts: the slot store -/

/-- The intent labels of `SlotState.lastIntent` in slot_memory.ts. -/
inductive Intent
  | weather | destinations | packing | attractions | policy | flights
  | unknown | web_search | system
deriving DecidableEq, Repr

/-- A receipts fact (shape used by graph.ts when calling setLastReceipts). -/
structure Fact where
  source : String
  key : String
  value : String
  url : Option String
deriving DecidableEq, Repr

/-- SlotState from slot_memory.ts. -/
structure SlotState where
  slots : List (String × String)
  expectedMissing : List String
  lastIntent : Option Intent
  lastFacts : Option (List Fact)
  lastDecisions : Option (List String)
  lastReply : Option String
deriving DecidableEq, Repr

/-- The default state `{ slots: {}, expectedMissing: [] }` used when a
thread id has no entry yet. -/
def emptySlotState : SlotState :=
  { slots := [], expectedMissing := [], lastIntent := none,
    lastFacts := none, lastDecisions := none, lastReply := none }

/-- The process-wide `slotStore : Map<string, SlotState>`, embedded
point-wise. -/
def Store : Type := String → Option SlotState

/-- getThreadSlots (in-memory branch): `store.get(threadId)?.slots ?? {}`. -/
def getThreadSlots (store : Store) (threadId : String) : List (String × String) :=
  match store threadId with
  | some s => s.slots
  | none => []

/-- getExpectedMissing: `slotStore.get(threadId)?.expectedMissing ?? []`. -/
def getExpectedMissing (store : Store) (threadId : String) : List String :=
  match store threadId with
  | some s => s.expectedMissing
  | none => []

/-- The merge loop of updateThreadSlots: start from a copy of the
previous slots and write each new entry whose value has positive
trimmed length. -/
def mergeSlots (prev news : List (String × String)) : List (String × String) :=
  news.foldl (fun acc kv => if 0 < (jsTrim kv.2).length then setKey acc kv.1 kv.2 else acc) prev

/-- updateThreadSlots (in-memory branch) from slot_memory.ts. -/
def updateThreadSlots (store : Store) (threadId : String)
    (slots : List (String × String)) (expectedMissing : List String) : Store :=
  let prev := (store threadId).getD emptySlotState
  let merged := mergeSlots prev.slots slots
  fun t => if t = threadId then
    some { prev with slots := merged, expectedMissing := expectedMissing }
  else store t

/-- clearThreadSlots: `slotStore.delete(threadId)`. -/
def clearThreadSlots (store : Store) (threadId : String) : Store :=
  fun t => if t = threadId then none else store t

/-- setLastIntent from slot_memory.ts. -/
def setLastIntent (store : Store) (threadId : String) (intent : Intent) : Store :=
  let prev := (store threadId).getD emptySlotState
  fun t => if t = threadId then some { prev with lastIntent := some intent } else store t

/-- getLastIntent from slot_memory.ts. -/
def getLastIntent (store : Store) (threadId : String) : Option Intent :=
  match store threadId with
  | some s => s.lastIntent
  | none => none

/-- setLastReceipts from slot_memory.ts (`reply` is the optional third
payload argument). -/
def setLastReceipts (store : Store) (threadId : String)
    (facts : List Fact) (decisions : List String) (reply : Option String) : Store :=
  let prev := (store threadId).getD emptySlotState
  fun t => if t = threadId then
    some { prev with lastFacts := some facts, lastDecisions := some decisions,
                     lastReply := reply }
  else store t

/-- getLastReceipts from slot_memory.ts, as the (facts?, decisions?, reply?)
triple. -/
def getLastReceipts (store : Store) (threadId : String) :
    Option (List Fact) × Option (List String) × Option String :=
  match store threadId with
  | some s => (s.lastFacts, s.lastDecisions, s.lastReply)
  | none => (none, none, none)

/-! ## graph.ts: the consent-state "clear" call -/

/-- The exact `updateThreadSlots(threadId, { awaiting_search_consent: '',
pending_search_query: '' }, [])` call made by runGraphTurn when a consent
response ends the web-search handshake (graph.ts lines 185-188). -/
def clearSearchConsent (store : Store) (threadId : String) : Store :=
  updateThreadSlots store threadId
    [("awaiting_search_consent", ""), ("pending_search_query", "")] []

/-! ## graph.ts: isContextSwitchQuery -/

/-- The plain consent responses recognised by
`/^(yes|no|y|n|sure|ok|okay|nope)$/i` (tested against the lowercased
trimmed message, so the regex is exact-match against this list). -/
def consentWords : List String := ["yes", "no", "y", "n", "sure", "ok", "okay", "nope"]

/-- The alternatives of `/^(what|where|how|when|which|who|why|can|should|do|is|are)/`;
the regex is unanchored at the right and has no word boundary, so it
tests whether the message starts with one of these strings. -/
def questionStarters : List String :=
  ["what", "where", "how", "when", "which", "who", "why", "can", "should", "do", "is", "are"]

/-- JS `s.split(/\s+/)`, embedded as splitting at every whitespace
character.  Splitting at each character instead of at runs only adds
empty fragments, which the `length > 2` filter discards. -/
def splitWsAux : List Char → List Char → List (List Char)
  | [], acc => [acc.reverse]
  | c :: cs, acc =>
      if c.isWhitespace then acc.reverse :: splitWsAux cs []
      else splitWsAux cs (c :: acc)

/-- JS `new Set(list)`: keep the first occurrence of each element, in
insertion order. -/
def firstDedup {α : Type} [DecidableEq α] (seen : List α) : List α → List α
  | [] => []
  | x :: xs => if x ∈ seen then firstDedup seen xs else x :: firstDedup (x :: seen) xs

/-- `new Set(s.split(/\s+/).filter(w => w.length > 2))` from
isContextSwitchQuery. -/
def wordSetGT2 (s : String) : List (List Char) :=
  firstDedup [] ((splitWsAux s.data []).filter (fun w => 2 < w.length))

/-- The intersection size and the larger set size used for the overlap
ratio in isContextSwitchQuery. -/
def overlapCounts (current pending : String) : Nat × Nat :=
  let cw := wordSetGT2 current
  let pw := wordSetGT2 pending
  ((cw.filter (fun w => pw.contains w)).length, max cw.length pw.length)

/-- isContextSwitchQuery from graph.ts.  The JS code compares
`intersection.size / Math.max(...) < 0.2` in floating point: when the
larger set is empty the ratio is NaN and the comparison is false, and
otherwise `i / m < 0.2` holds exactly when `5 * i < m` (the double
nearest 0.2 is slightly above 1/5, and `i / m` rounds to the same double
as the literal only when `5 * i = m`). -/
def isContextSwitchQuery (currentMessage pendingQuery : String) : Bool :=
  if jsTrim (lowerStr currentMessage) == jsTrim (lowerStr pendingQuery) then false
  else if consentWords.contains (jsTrim (lowerStr currentMessage)) then false
  else if questionStarters.any
      (fun w => w.data.isPrefixOf (jsTrim (lowerStr currentMessage)).data) then
    decide ((overlapCounts (jsTrim (lowerStr currentMessage))
              (jsTrim (lowerStr pendingQuery))).2 ≠ 0)
      && decide (5 * (overlapCounts (jsTrim (lowerStr currentMessage))
                       (jsTrim (lowerStr pendingQuery))).1
                 < (overlapCounts (jsTrim (lowerStr currentMessage))
                     (jsTrim (lowerStr pendingQuery))).2)
  else false

/-! ## parsers.ts / slot_memory.ts (NLP module): detectIntentAndSlots fallback -/

/-- The intent labels of the intent parser
(`z.enum(['weather','destinations','packing','attractions','unknown'])`). -/
inductive ParsedIntent
  | weather | destinations | packing | attractions | unknown
deriving DecidableEq, Repr

/-- Payload of a successful parseIntent call: intent plus extracted
slots. -/
structure IntentParseData where
  intent : ParsedIntent
  slots : List (String × String)
deriving DecidableEq, Repr

/-- Outcome of the awaited `parseIntent(...).catch(() => ({success:
false, confidence: 0}))` call, supplied as an oracle: success flag,
optional data, and confidence (the `?? 0.4` default applies when the
field is absent). -/
structure IntentParseRes where
  success : Bool
  data : Option IntentParseData
  confidence : Option ℚ
deriving DecidableEq, Repr

/-- Outcome of the awaited parseCity call (`city?.success &&
city.data?.normalized`). -/
structure CityParseOutcome where
  success : Bool
  normalized : Option String
deriving DecidableEq, Repr

/-- Outcome of the awaited parseDate call (`date?.success &&
date.data?.dates`, optional month). -/
structure DateParseOutcome where
  success : Bool
  dates : Option String
  month : Option String
deriving DecidableEq, Repr

/-- RouteResult from the NLP module. -/
structure RouteResult where
  intent : ParsedIntent
  needExternal : Bool
  slots : List (String × String)
  confidence : ℚ
  missingSlots : List String
deriving DecidableEq, Repr

/-- JS `Object.assign(dst, src)`: write every entry of src over dst. -/
def assignRecord (dst src : List (String × String)) : List (String × String) :=
  src.foldl (fun acc kv => setKey acc kv.1 kv.2) dst

/-- The inferred intent of the fallback path: the parsed intent when
parseIntent succeeded with data, otherwise 'unknown'. -/
def inferredIntentOf (ir : IntentParseRes) : ParsedIntent :=
  match ir.success, ir.data with
  | true, some d => d.intent
  | _, _ => ParsedIntent.unknown

/-- The slot record built by the fallback path of detectIntentAndSlots:
a copy of the context, overwritten by the parsed intent's slots when
parseIntent succeeded, else extended by the best-effort city and date
parses. -/
def fallbackSlots (context : List (String × String)) (ir : IntentParseRes)
    (city : CityParseOutcome) (date : DateParseOutcome) : List (String × String) :=
  match ir.success, ir.data with
  | true, some d => assignRecord context d.slots
  | _, _ =>
    let s1 := if city.success && jsTruthyStr city.normalized then
        setKey context "city" (city.normalized.getD "") else context
    let s2 := if date.success && jsTruthyStr date.dates then
        setKey s1 "dates" (date.dates.getD "") else s1
    if date.success && jsTruthyStr date.dates && jsTruthyStr date.month then
        setKey s2 "month" (date.month.getD "") else s2

/-- The fallback path of detectIntentAndSlots (slot_memory.ts NLP module,
lines 233-261), entered when the LLM router fails; the outcomes of the
three awaited parser calls are oracle parameters. -/
def detectIntentAndSlotsFallback (context : List (String × String))
    (ir : IntentParseRes) (city : CityParseOutcome) (date : DateParseOutcome) : RouteResult :=
  let slots := fallbackSlots context ir city date
  let inferred := inferredIntentOf ir
  let missing :=
    if inferred = ParsedIntent.destinations ∨ inferred = ParsedIntent.packing
        ∨ inferred = ParsedIntent.weather ∨ inferred = ParsedIntent.attractions then
      (if !(jsTruthyStr (recLookup slots "city")) then ["city"] else [])
      ++ (if inferred = ParsedIntent.destinations
            ∧ !(jsTruthyStr (recLookup slots "dates")) = true
            ∧ !(jsTruthyStr (recLookup slots "month")) = true then ["dates"] else [])
      ++ (if inferred = ParsedIntent.packing
            ∧ !(jsTruthyStr (recLookup slots "dates")) = true
            ∧ !(jsTruthyStr (recLookup slots "month")) = true then ["dates"] else [])
    else []
  { intent := inferred
    needExternal := decide (inferred ≠ ParsedIntent.unknown) && missing.isEmpty
    slots := slots
    confidence := ir.confidence.getD (2 / 5)
    missingSlots := missing }

/-! ## parsers.ts: the parseCity month guard -/

/-- The alternatives of the guard regex
`/^(january|february|...|december|jan|feb|mar|apr|may|jun|jul|aug|sep|oct|nov|dec)\.?$/i`
in parseCity. -/
def monthRegexForms : List String :=
  ["january", "february", "march", "april", "may", "june", "july",
   "august", "september", "october", "november", "december",
   "jan", "feb", "mar", "apr", "may", "jun", "jul", "aug", "sep", "oct", "nov", "dec"]

/-- The guard test: the regex is anchored on both sides and
case-insensitive, so it accepts exactly a month form, optionally
followed by a period, up to case, on the trimmed text. -/
def monthGuard (text : String) : Bool :=
  monthRegexForms.any
    (fun m => lowerStr (jsTrim text) == m || lowerStr (jsTrim text) == m ++ ".")

/-- Payload of a successful city parse. -/
structure CityData where
  city : String
  country : Option String
  normalized : String
  confidence : ℚ
deriving DecidableEq, Repr

/-- The ParseResponse shape returned by parseCity. -/
structure CityParseResponse where
  success : Bool
  data : Option CityData
  confidence : ℚ
  normalized : Option String
deriving DecidableEq, Repr

/-- parseCity from parsers.ts: the month guard runs first and returns
`{ success: false, data: null, confidence: 0 }`; past the guard the
result comes from the NER / LLM / heuristic cascade, whose outcome
depends on external calls and is supplied as the oracle `rest`. -/
def parseCity (text : String) (rest : CityParseResponse) : CityParseResponse :=
  if monthGuard text then
    { success := false, data := none, confidence := 0, normalized := none }
  else rest

/-! ## slot_memory.ts (NLP module): clarifierLLM -/

/-- Substring containment, JS `String.prototype.includes`. -/
def containsSub (s sub : String) : Bool :=
  (List.range (s.data.length + 1)).any (fun i => sub.data.isPrefixOf (s.data.drop i))

/-- The provider-error test `/technical difficulties|try again|error/i`
applied to the lowercased reply. -/
def providerErrorB (lower : String) : Bool :=
  containsSub lower "technical difficulties" || containsSub lower "try again"
    || containsSub lower "error"

/-- fallbackClarifier from the NLP module: deterministic questions keyed
by the lowercased missing-slot set. -/
def fallbackClarifier (missing : List String) : String :=
  if (missing.map lowerStr).contains "dates" && (missing.map lowerStr).contains "city" then
    "Could you share the city and month/dates?"
  else if (missing.map lowerStr).contains "dates" then
    "Which month or travel dates?"
  else if (missing.map lowerStr).contains "city" then
    "Which city are you asking about?"
  else
    "Could you provide more details about your travel plans?"

/-- clarifierLLM from the NLP module.  The oracle `llm` holds the
outcome of the prompt lookup plus LLM call: `none` when either threw,
`some raw` when a reply string came back. -/
def clarifierLLM (missing : List String) (llm : Option String) : String :=
  match llm with
  | none => fallbackClarifier missing
  | some raw =>
    if decide (0 < (jsTrim raw).length)
        && missing.all (fun m => containsSub (lowerStr (jsTrim raw)) (lowerStr m))
        && !(providerErrorB (lowerStr (jsTrim raw))) then
      jsTrim raw
    else fallbackClarifier missing

/-- The claim's failure condition for the LLM reply: the call threw,
returned an empty (trimmed) string, missed one of the missing slot
names, or returned provider-error text. -/
def clarifierLLMFailed (missing : List String) (llm : Option String) : Bool :=
  match llm with
  | none => true
  | some raw =>
    jsTrim raw == ""
      || !(missing.all (fun m => containsSub (lowerStr (jsTrim raw)) (lowerStr m)))
      || providerErrorB (lowerStr (jsTrim raw))

/-! ## tavily_search.ts: searchTravelInfo -/

/-- A result item of the Tavily SDK response. -/
structure TavilyResult where
  title : String
  url : String
  content : String
deriving DecidableEq, Repr

/-- The Tavily SDK response shape used by the wrapper. -/
structure TavilyResponse where
  results : List TavilyResult
  answer : Option String
deriving DecidableEq, Repr

/-- The SearchResult shape of the wrapper's ok-result. -/
structure SearchResult where
  title : String
  url : String
  description : String
deriving DecidableEq, Repr

/-- The discriminated failure reasons of the wrapper. -/
inductive SearchFailReason
  | no_query | no_api_key | circuit_breaker_open | auth_error
  | rate_limited | timeout | network | unknown_error
deriving DecidableEq, Repr

/-- The discriminated result `Out` of searchTravelInfo. -/
inductive SearchOut
  | ok (results : List SearchResult) (deepSummary : Option String)
  | err (reason : SearchFailReason)
deriving DecidableEq, Repr

/-- The catch-block classification of a thrown error by substrings of
its lowercased message. -/
def classifyTavilyError (msg : String) : SearchFailReason :=
  if containsSub msg "circuit" || containsSub msg "breaker" then
    SearchFailReason.circuit_breaker_open
  else if containsSub msg "401" || containsSub msg "403" || containsSub msg "unauthorized" then
    SearchFailReason.auth_error
  else if containsSub msg "429" || containsSub msg "rate" then
    SearchFailReason.rate_limited
  else if containsSub msg "timeout" then
    SearchFailReason.timeout
  else if containsSub msg "network" || containsSub msg "fetch" then
    SearchFailReason.network
  else
    SearchFailReason.unknown_error

/-- `e instanceof Error ? e.message.toLowerCase() : ''`: a thrown value
is embedded as `Option String` (none for a non-Error throw). -/
def tavilyErrMsg : Option String → String
  | some m => lowerStr m
  | none => ""

/-- searchTravelInfo from tavily_search.ts.  `apiKey` is the
TAVILY_API_KEY environment variable (`none` when unset; an empty string
is also falsy in JS), `sdk` is the outcome of the awaited
`withResilience('tavily', ...)` call (`Except.error` when it threw,
carrying the optional error message), and `crawlSummary` is the summary
of a successful deep-research crawl, if any. -/
def searchTravelInfo (query : String) (apiKey : Option String)
    (sdk : Except (Option String) TavilyResponse)
    (deepResearch : Bool) (crawlSummary : Option String) : SearchOut :=
  if jsTrim query == "" then SearchOut.err SearchFailReason.no_query
  else if !(jsTruthyStr apiKey) then SearchOut.err SearchFailReason.no_api_key
  else
    match sdk with
    | Except.ok res =>
      let results := res.results.map
        (fun r => { title := r.title, url := r.url, description := r.content : SearchResult })
      let base := res.answer.map jsTrim
      let deepSummary :=
        if deepResearch && decide (0 < results.length) then
          match crawlSummary with
          | some s => some s
          | none => base
        else base
      SearchOut.ok results deepSummary
    | Except.error e => SearchOut.err (classifyTavilyError (tavilyErrMsg e))

/-! ## graph.ts: season-conflict detection -/

/-- JS `\w` (ASCII word character). -/
def isWordChar (c : Char) : Bool := c.isAlphanum || c == '_'

/-- The alternatives of `/\b(winter|summer|spring|fall|autumn)\b/gi`. -/
def seasonWords : List String := ["winter", "summer", "spring", "fall", "autumn"]

/-- A case-insensitive, word-boundary-delimited occurrence of the season
word `w` at position `i` of the character list. -/
def seasonMatchAt (cs : List Char) (i : Nat) (w : String) : Bool :=
  (((cs.drop i).take w.length).map Char.toLower == w.data)
    && (i == 0 || !(isWordChar (cs.getD (i - 1) ' ')))
    && (decide (cs.length ≤ i + w.length) || !(isWordChar (cs.getD (i + w.length) ' ')))

/-- The season match starting at position `i`, if any, with the matched
text as it appears in the message. -/
def seasonAt (cs : List Char) (i : Nat) : Option String :=
  (seasonWords.find? (fun w => seasonMatchAt cs i w)).map
    (fun w => ((cs.drop i).take w.length).asString)

/-- `message.match(/\b(winter|summer|spring|fall|autumn)\b/gi) || []`.
Matches of this regex cannot overlap (each needs a word boundary on both
sides and the words are made of word characters), so scanning every
position reproduces the global match list in order. -/
def findSeasons (message : String) : List String :=
  (List.range message.data.length).filterMap (fun i => seasonAt message.data i)

/-- `[...new Set(seasons.map(s => s.toLowerCase()))]`. -/
def uniqueSeasonsOf (message : String) : List String :=
  firstDedup [] ((findSeasons message).map lowerStr)

/-- JS `Array.prototype.join(', ')`. -/
def joinComma : List String → String
  | [] => ""
  | [x] => x
  | x :: xs => x ++ ", " ++ joinComma xs

/-- The season-conflict check of runGraphTurn (graph.ts lines 346-353):
when the message mentions more than one distinct season the turn ends
(`done`) with the clarifying reply, before any intent handler runs. -/
def seasonConflictReply (message : String) : Option String :=
  if 1 < (uniqueSeasonsOf message).length then
    some ("I notice you mentioned multiple seasons ("
      ++ joinComma (uniqueSeasonsOf message)
      ++ "). Which season are you planning to travel in?")
  else none

/-! ## Helper lemmas about the record embedding -/

theorem recLookup_setKey (m : List (String × String)) (k key v : String) :
    recLookup (setKey m k v) key = if k = key then some v else recLookup m key := by
  induction m with
  | nil =>
    by_cases h : k = key <;> simp [setKey, recLookup, h]
  | cons hd tl ih =>
    obtain ⟨hk, hv⟩ := hd
    by_cases h1 : hk = k
    · subst h1
      by_cases h2 : hk = key <;> simp [setKey, recLookup, h2]
    · by_cases h2 : hk = key
      · subst h2
        have : ¬ k = hk := fun h => h1 h.symm
        simp [setKey, recLookup, h1, this]
      · simp [setKey, recLookup, h1, h2, ih]

theorem recLookup_eq_none_of_not_mem (l : List (String × String)) (k : String)
    (h : k ∉ l.map Prod.fst) : recLookup l k = none := by
  induction l with
  | nil => simp [recLookup]
  | cons hd tl ih =>
    simp only [List.map_cons, List.mem_cons] at h
    push_neg at h
    have : ¬ hd.1 = k := fun hh => h.1 hh.symm
    cases hd
    simp only [recLookup, this, if_false]
    exact ih h.2

theorem mergeSlots_cons (prev : List (String × String)) (kv : String × String)
    (tl : List (String × String)) :
    mergeSlots prev (kv :: tl)
      = mergeSlots (if 0 < (jsTrim kv.2).length then setKey prev kv.1 kv.2 else prev) tl := by
  simp [mergeSlots, List.foldl_cons]

/-- Lookup after the updateThreadSlots merge loop: a key that appears in
the new entries with a trim-positive value takes that value; every other
key keeps its previous binding.  The Nodup hypothesis reflects that the
new entries come from `Object.entries` of a JS object, whose keys are
unique. -/
theorem mergeSlots_lookup (news : List (String × String)) (prev : List (String × String))
    (k : String) (hnd : (news.map Prod.fst).Nodup) :
    recLookup (mergeSlots prev news) k =
      (match recLookup news k with
       | some v => if 0 < (jsTrim v).length then some v else recLookup prev k
       | none => recLookup prev k) := by
  induction news generalizing prev with
  | nil => simp [mergeSlots, recLookup]
  | cons hd tl ih =>
    obtain ⟨k0, v0⟩ := hd
    simp only [List.map_cons, List.nodup_cons] at hnd
    obtain ⟨hk0, htl⟩ := hnd
    rw [mergeSlots_cons, ih _ htl]
    by_cases hk : k0 = k
    · subst hk
      have hnone : recLookup tl k0 = none := recLookup_eq_none_of_not_mem tl k0 hk0
      rw [hnone]
      simp only [recLookup, if_pos rfl]
      by_cases hp : 0 < (jsTrim v0).length
      · simp [hp, recLookup_setKey]
      · simp [hp]
    · have : recLookup ((k0, v0) :: tl) k = recLookup tl k := by
        simp [recLookup, hk]
      rw [this]
      have hprev : recLookup (if 0 < (jsTrim v0).length then setKey prev k0 v0 else prev) k
          = recLookup prev k := by
        by_cases hp : 0 < (jsTrim v0).length
        · simp [hp, recLookup_setKey, hk]
        · simp [hp]
      cases hr : recLookup tl k <;> simp [hprev]

theorem getThreadSlots_update_self (store : Store) (tid : String)
    (news : List (String × String)) (em : List String) :
    getThreadSlots (updateThreadSlots store tid news em) tid
      = mergeSlots (getThreadSlots store tid) news := by
  cases h : store tid <;>
    simp [getThreadSlots, updateThreadSlots, h, emptySlotState]

/-! ## C1 -/

/-- C1: for every thread id and every updateThreadSlots call, the stored
slot map is the shallow merge of the previous map with the new entries: a
key is overwritten exactly when its new value has positive trimmed
length, every other key keeps its previous value (so no key is ever
removed by an update), and clearThreadSlots empties the thread's map. -/
theorem updateThreadSlots_shallow_merge (store : Store) (threadId : String)
    (news : List (String × String)) (em : List String) (k : String)
    (hnd : (news.map Prod.fst).Nodup) :
    (recLookup (getThreadSlots (updateThreadSlots store threadId news em) threadId) k =
      (match recLookup news k with
       | some v => if 0 < (jsTrim v).length then some v
                   else recLookup (getThreadSlots store threadId) k
       | none => recLookup (getThreadSlots store threadId) k))
    ∧ ((recLookup (getThreadSlots store threadId) k).isSome = true →
        (recLookup (getThreadSlots (updateThreadSlots store threadId news em) threadId) k).isSome = true)
    ∧ getThreadSlots (clearThreadSlots store threadId) threadId = [] := by
  have hmain := mergeSlots_lookup news (getThreadSlots store threadId) k hnd
  rw [getThreadSlots_update_self store threadId news em]
  refine ⟨hmain, ?_, ?_⟩
  · intro hsome
    rw [hmain]
    cases hr : recLookup news k with
    | none => simpa using hsome
    | some v =>
      by_cases hp : 0 < (jsTrim v).length
      · simp [hp]
      · simpa [hp] using hsome
  · simp [getThreadSlots, clearThreadSlots]

/-- Concrete witness for C1: in a store whose thread `t` maps city to
Paris, an update `{city: "  ", month: "June"}` keeps city (whitespace is
dropped) and writes month. -/
theorem updateThreadSlots_shallow_merge_witness :
    recLookup
      (getThreadSlots
        (updateThreadSlots
          (updateThreadSlots (fun _ => none) "t" [("city", "Paris")] [])
          "t" [("city", "  "), ("month", "June")] []) "t") "city" = some "Paris" := by
  have h := updateThreadSlots_shallow_merge
    (updateThreadSlots (fun _ => none) "t" [("city", "Paris")] [])
    "t" [("city", "  "), ("month", "June")] [] "city" (by decide)
  rw [h.1]
  decide

/-! ## C5 -/

/-- C5: setLastReceipts overwrites the previous receipts for the thread
(after two successive calls getLastReceipts returns exactly the payload
of the most recent one) and leaves slots, expectedMissing and lastIntent
of the thread's state unchanged. -/
theorem setLastReceipts_overwrites (store : Store) (tid : String)
    (f1 f2 : List Fact) (d1 d2 : List String) (r1 r2 : Option String) :
    getLastReceipts (setLastReceipts (setLastReceipts store tid f1 d1 r1) tid f2 d2 r2) tid
      = (some f2, some d2, r2)
    ∧ getThreadSlots (setLastReceipts store tid f1 d1 r1) tid = getThreadSlots store tid
    ∧ getExpectedMissing (setLastReceipts store tid f1 d1 r1) tid = getExpectedMissing store tid
    ∧ getLastIntent (setLastReceipts store tid f1 d1 r1) tid = getLastIntent store tid := by
  cases h : store tid <;>
    simp [getLastReceipts, setLastReceipts, getThreadSlots, getExpectedMissing,
          getLastIntent, emptySlotState, h]

/-! ## C6 -/

/-- C6: the slot store is last-write-wins and keyed by thread id: two
sequential updateThreadSlots writes of (trim-positive) values v1 then v2
at the same key leave v2, and every mutating operation for thread A
leaves the state of a distinct thread B unchanged. -/
theorem slotStore_last_write_wins (store : Store) (A B tid k v1 v2 : String)
    (em1 em2 em : List String) (slots : List (String × String))
    (intent : Intent) (facts : List Fact) (decisions : List String) (reply : Option String)
    (h1 : 0 < (jsTrim v1).length) (h2 : 0 < (jsTrim v2).length) (hAB : A ≠ B) :
    recLookup
      (getThreadSlots
        (updateThreadSlots (updateThreadSlots store tid [(k, v1)] em1) tid [(k, v2)] em2)
        tid) k = some v2
    ∧ updateThreadSlots store A slots em B = store B
    ∧ setLastIntent store A intent B = store B
    ∧ setLastReceipts store A facts decisions reply B = store B
    ∧ clearThreadSlots store A B = store B := by
  have hBA : ¬ B = A := fun h => hAB h.symm
  refine ⟨?_, ?_, ?_, ?_, ?_⟩
  · rw [getThreadSlots_update_self, getThreadSlots_update_self]
    simp [mergeSlots, h1, h2, recLookup_setKey]
  · simp [updateThreadSlots, hBA]
  · simp [setLastIntent, hBA]
  · simp [setLastReceipts, hBA]
  · simp [clearThreadSlots, hBA]

/-- Concrete witness for C6: writing city Paris then city Rome on thread
`a` yields Rome, and the write on `a` leaves thread `b` untouched. -/
theorem slotStore_last_write_wins_witness :
    recLookup
      (getThreadSlots
        (updateThreadSlots (updateThreadSlots (fun _ => none) "a" [("city", "Paris")] [])
          "a" [("city", "Rome")] []) "a") "city" = some "Rome"
    ∧ updateThreadSlots (fun _ => none) "a" [("city", "Paris")] [] "b"
        = (fun _ => none : Store) "b" := by
  have h := slotStore_last_write_wins (fun _ => none) "a" "b" "a" "city" "Paris" "Rome"
    [] [] [] [("city", "Paris")] Intent.weather [] [] none
    (by decide) (by decide) (by decide)
  exact ⟨h.1, h.2.1⟩

/-! ## C2 -/

/-- C2 (code bug): the consent-state "clear" in runGraphTurn writes empty
strings through updateThreadSlots, but the merge loop drops values whose
trimmed length is zero, so the write is a no-op on the slot map: after
the consent turn the thread still maps awaiting_search_consent to "true"
and pending_search_query to the old query.  The general conjunct shows
the call never changes any thread's slot map at all. -/
theorem clearSearchConsent_ineffective :
    (∀ (store : Store) (tid : String),
      getThreadSlots (clearSearchConsent store tid) tid = getThreadSlots store tid)
    ∧ recLookup
        (getThreadSlots
          (clearSearchConsent
            (updateThreadSlots (fun _ => none) "t1"
              [("awaiting_search_consent", "true"),
               ("pending_search_query", "airlines from NYC to Tokyo")] []) "t1") "t1")
        "awaiting_search_consent" = some "true"
    ∧ recLookup
        (getThreadSlots
          (clearSearchConsent
            (updateThreadSlots (fun _ => none) "t1"
              [("awaiting_search_consent", "true"),
               ("pending_search_query", "airlines from NYC to Tokyo")] []) "t1") "t1")
        "pending_search_query" = some "airlines from NYC to Tokyo" := by
  have hgen : ∀ (store : Store) (tid : String),
      getThreadSlots (clearSearchConsent store tid) tid = getThreadSlots store tid := by
    intro store tid
    rw [clearSearchConsent, getThreadSlots_update_self]
    simp [mergeSlots, jsTrim]
  refine ⟨hgen, ?_, ?_⟩ <;> rw [hgen] <;> decide

/-! ## C3 -/

/-- C3 counterexample: for current message "do it" and pending query
"go" every conjunct of the claim holds — the messages differ, "do it" is
not a consent word, it starts with the auxiliary "do", and the overlap
ratio (0 shared words over a larger word-set size of 0, i.e. 0/0 read as
a rational) is below 0.2 — yet the code returns false, because with both
word sets empty the JS division yields NaN and `NaN < 0.2` is false. -/
theorem isContextSwitchQuery_claim_counterexample :
    (jsTrim (lowerStr "do it") ≠ jsTrim (lowerStr "go")
      ∧ jsTrim (lowerStr "do it") ∉ consentWords
      ∧ (∃ w ∈ questionStarters, w.data.isPrefixOf (jsTrim (lowerStr "do it")).data = true)
      ∧ ((overlapCounts (jsTrim (lowerStr "do it")) (jsTrim (lowerStr "go"))).1 : ℚ)
          / ((overlapCounts (jsTrim (lowerStr "do it")) (jsTrim (lowerStr "go"))).2 : ℚ)
          < 1 / 5)
    ∧ isContextSwitchQuery "do it" "go" = false := by
  have hc : overlapCounts (jsTrim (lowerStr "do it")) (jsTrim (lowerStr "go")) = (0, 0) := by
    decide
  refine ⟨⟨by decide, by decide, ⟨"do", by decide, by decide⟩, ?_⟩, by decide⟩
  rw [hc]
  norm_num

/-- C3 (amended): isContextSwitchQuery returns true iff the lowercased
trimmed current message differs from the lowercased trimmed pending
query, is not a plain consent word, starts with one of the
question/auxiliary words, the larger of the two word sets is non-empty,
and the overlap ratio — shared words of length greater than 2 divided by
the size of the larger word set — is strictly less than 0.2.  (The
amendment adds the non-emptiness conjunct: when both word sets are empty
the code computes NaN and returns false.) -/
theorem ratio_lt_fifth_iff (i m : ℕ) (hm : m ≠ 0) :
    ((i : ℚ) / (m : ℚ) < 1 / 5) ↔ 5 * i < m := by
  have hm' : (0 : ℚ) < (m : ℚ) := by exact_mod_cast Nat.pos_of_ne_zero hm
  rw [div_lt_div_iff₀ hm' (by norm_num : (0 : ℚ) < 5), one_mul, mul_comm]
  exact_mod_cast Iff.rfl

theorem isContextSwitchQuery_spec (currentMessage pendingQuery : String) :
    isContextSwitchQuery currentMessage pendingQuery = true ↔
      (jsTrim (lowerStr currentMessage) ≠ jsTrim (lowerStr pendingQuery)
        ∧ jsTrim (lowerStr currentMessage) ∉ consentWords
        ∧ (∃ w ∈ questionStarters,
             w.data.isPrefixOf (jsTrim (lowerStr currentMessage)).data = true)
        ∧ (overlapCounts (jsTrim (lowerStr currentMessage)) (jsTrim (lowerStr pendingQuery))).2 ≠ 0
        ∧ ((overlapCounts (jsTrim (lowerStr currentMessage)) (jsTrim (lowerStr pendingQuery))).1 : ℚ)
            / ((overlapCounts (jsTrim (lowerStr currentMessage)) (jsTrim (lowerStr pendingQuery))).2 : ℚ)
            < 1 / 5) := by
  unfold isContextSwitchQuery
  set current := jsTrim (lowerStr currentMessage) with hcur
  set pending := jsTrim (lowerStr pendingQuery) with hpen
  by_cases h1 : current == pending
  · simp only [h1, if_true]
    have : current = pending := by simpa using h1
    simp [this]
  · simp only [h1, if_false, Bool.false_eq_true]
    have hne : current ≠ pending := by simpa using h1
    by_cases h2 : consentWords.contains current
    · simp only [h2, if_true]
      have : current ∈ consentWords := by simpa using h2
      simp [this]
    · simp only [h2, if_false, Bool.false_eq_true]
      have hnc : current ∉ consentWords := by simpa using h2
      by_cases h3 : questionStarters.any (fun w => w.data.isPrefixOf current.data)
      · simp only [h3, if_true]
        have hq : ∃ w ∈ questionStarters, w.data.isPrefixOf current.data = true := by
          simpa [List.any_eq_true] using h3
        simp only [Bool.and_eq_true, decide_eq_true_eq]
        constructor
        · rintro ⟨hm, hlt⟩
          exact ⟨hne, hnc, hq, hm,
            (ratio_lt_fifth_iff _ _ hm).mpr hlt⟩
        · rintro ⟨-, -, -, hm, hlt⟩
          exact ⟨hm, (ratio_lt_fifth_iff _ _ hm).mp hlt⟩
      · simp only [h3, if_false, Bool.false_eq_true]
        have hnq : ¬ ∃ w ∈ questionStarters, w.data.isPrefixOf current.data = true := by
          simpa [List.any_eq_true] using h3
        rw [false_iff]
        rintro ⟨-, -, hq, -, -⟩
        exact hnq hq

/-! ## C4 -/

/-- C4: in the fallback path of detectIntentAndSlots, missingSlots
contains 'city' iff the inferred intent is one of destinations, packing,
weather, attractions and no city slot is set; it contains 'dates' iff
the inferred intent is destinations or packing and neither a dates nor a
month slot is set; and needExternal holds iff the inferred intent is not
'unknown' and missingSlots is empty. -/
theorem detectIntentAndSlots_fallback_missing (context : List (String × String))
    (ir : IntentParseRes) (city : CityParseOutcome) (date : DateParseOutcome) :
    ("city" ∈ (detectIntentAndSlotsFallback context ir city date).missingSlots ↔
      ((inferredIntentOf ir = ParsedIntent.destinations
          ∨ inferredIntentOf ir = ParsedIntent.packing
          ∨ inferredIntentOf ir = ParsedIntent.weather
          ∨ inferredIntentOf ir = ParsedIntent.attractions)
        ∧ jsTruthyStr (recLookup (detectIntentAndSlotsFallback context ir city date).slots "city")
            = false))
    ∧ ("dates" ∈ (detectIntentAndSlotsFallback context ir city date).missingSlots ↔
      ((inferredIntentOf ir = ParsedIntent.destinations
          ∨ inferredIntentOf ir = ParsedIntent.packing)
        ∧ jsTruthyStr (recLookup (detectIntentAndSlotsFallback context ir city date).slots "dates")
            = false
        ∧ jsTruthyStr (recLookup (detectIntentAndSlotsFallback context ir city date).slots "month")
            = false))
    ∧ ((detectIntentAndSlotsFallback context ir city date).needExternal = true ↔
        (inferredIntentOf ir ≠ ParsedIntent.unknown
          ∧ (detectIntentAndSlotsFallback context ir city date).missingSlots = []))
    ∧ (detectIntentAndSlotsFallback context ir city date).intent = inferredIntentOf ir := by
  simp only [detectIntentAndSlotsFallback]
  cases hI : inferredIntentOf ir <;>
    by_cases hbc : jsTruthyStr (recLookup (fallbackSlots context ir city date) "city") = true <;>
    by_cases hbd : jsTruthyStr (recLookup (fallbackSlots context ir city date) "dates") = true <;>
    by_cases hbm : jsTruthyStr (recLookup (fallbackSlots context ir city date) "month") = true <;>
    simp_all [Bool.not_eq_true, List.isEmpty_iff]

/-- Concrete witness for C4: a successful intent parse of 'destinations'
with no extracted slots and failed city/date parses reports city among
the missing slots. -/
theorem detectIntentAndSlots_fallback_missing_witness :
    "city" ∈ (detectIntentAndSlotsFallback []
      { success := true,
        data := some { intent := ParsedIntent.destinations, slots := [] },
        confidence := some (9 / 10) }
      { success := false, normalized := none }
      { success := false, dates := none, month := none }).missingSlots :=
  (detectIntentAndSlots_fallback_missing [] _ _ _).1.mpr ⟨Or.inl rfl, by decide⟩

/-! ## C7 -/

theorem mem_firstDedup {α : Type} [DecidableEq α] (seen l : List α) (x : α) :
    x ∈ firstDedup seen l ↔ (x ∈ l ∧ x ∉ seen) := by
  induction l generalizing seen with
  | nil => simp [firstDedup]
  | cons y ys ih =>
    by_cases hy : y ∈ seen
    · rw [firstDedup, if_pos hy, ih]
      constructor
      · rintro ⟨hx, hxs⟩
        exact ⟨List.mem_cons_of_mem _ hx, hxs⟩
      · rintro ⟨hx, hxs⟩
        rcases List.mem_cons.mp hx with rfl | hx
        · exact absurd hy hxs
        · exact ⟨hx, hxs⟩
    · rw [firstDedup, if_neg hy]
      constructor
      · intro hx
        rcases List.mem_cons.mp hx with rfl | hx
        · exact ⟨List.mem_cons_self _ _, hy⟩
        · obtain ⟨h1, h2⟩ := (ih _).mp hx
          refine ⟨List.mem_cons_of_mem _ h1, fun hs => h2 (List.mem_cons_of_mem _ hs)⟩
      · rintro ⟨hx, hxs⟩
        rcases List.mem_cons.mp hx with rfl | hx
        · exact List.mem_cons_self _ _
        · by_cases hxy : x = y
          · subst hxy
            exact List.mem_cons_self _ _
          · refine List.mem_cons_of_mem _ ((ih _).mpr ⟨hx, ?_⟩)
            simp [List.mem_cons, hxy, hxs]

theorem nodup_firstDedup {α : Type} [DecidableEq α] (seen l : List α) :
    (firstDedup seen l).Nodup := by
  induction l generalizing seen with
  | nil => simp [firstDedup]
  | cons y ys ih =>
    by_cases hy : y ∈ seen
    · rw [firstDedup, if_pos hy]
      exact ih seen
    · rw [firstDedup, if_neg hy]
      refine List.nodup_cons.mpr ⟨?_, ih _⟩
      intro hmem
      exact ((mem_firstDedup _ _ _).mp hmem).2 (List.mem_cons_self _ _)

theorem seasonWords_take_eq (w1 w2 : String) (h1 : w1 ∈ seasonWords) (h2 : w2 ∈ seasonWords)
    (h : w1.data = w2.data.take w1.data.length) : w1 = w2 := by
  simp only [seasonWords, List.mem_cons, List.not_mem_nil, or_false] at h1 h2
  rcases h1 with rfl | rfl | rfl | rfl | rfl <;>
    rcases h2 with rfl | rfl | rfl | rfl | rfl <;>
    first
      | rfl
      | (exfalso; revert h; decide)

theorem seasonWords_data_ne_nil (w : String) (hw : w ∈ seasonWords) : w.data ≠ [] := by
  simp only [seasonWords, List.mem_cons, List.not_mem_nil, or_false] at hw
  rcases hw with rfl | rfl | rfl | rfl | rfl <;> decide

theorem seasonMatchAt_map (cs : List Char) (i : Nat) (w : String)
    (h : seasonMatchAt cs i w = true) :
    ((cs.drop i).take w.length).map Char.toLower = w.data := by
  simp only [seasonMatchAt, Bool.and_eq_true, beq_iff_eq] at h
  exact h.1.1

theorem seasonMatchAt_lt (cs : List Char) (i : Nat) (w : String)
    (hw : w ∈ seasonWords) (h : seasonMatchAt cs i w = true) : i < cs.length := by
  by_contra hge
  push_neg at hge
  have hdrop : cs.drop i = [] := List.drop_eq_nil_of_le hge
  have hmap := seasonMatchAt_map cs i w h
  rw [hdrop] at hmap
  simp only [List.take_nil, List.map_nil] at hmap
  exact seasonWords_data_ne_nil w hw hmap.symm

theorem seasonMatchAt_unique (cs : List Char) (i : Nat) (w1 w2 : String)
    (hw1 : w1 ∈ seasonWords) (hw2 : w2 ∈ seasonWords)
    (h1 : seasonMatchAt cs i w1 = true) (h2 : seasonMatchAt cs i w2 = true) : w1 = w2 := by
  have e1 := seasonMatchAt_map cs i w1 h1
  have e2 := seasonMatchAt_map cs i w2 h2
  rw [List.map_take] at e1 e2
  rcases Nat.le_total w1.length w2.length with hle | hle
  · refine seasonWords_take_eq w1 w2 hw1 hw2 ?_
    calc w1.data = (((cs.drop i).map Char.toLower).take w2.length).take w1.length := by
          rw [List.take_take, Nat.min_eq_left hle, e1]
      _ = w2.data.take w1.data.length := by rw [e2]; rfl
  · refine (seasonWords_take_eq w2 w1 hw2 hw1 ?_).symm
    calc w2.data = (((cs.drop i).map Char.toLower).take w1.length).take w2.length := by
          rw [List.take_take, Nat.min_eq_left hle, e2]
      _ = w1.data.take w2.data.length := by rw [e1]; rfl

theorem lowerStr_matched (cs : List Char) (i : Nat) (w : String)
    (h : seasonMatchAt cs i w = true) :
    lowerStr (((cs.drop i).take w.length).asString) = w := by
  have hmap := seasonMatchAt_map cs i w h
  show ((((cs.drop i).take w.length).asString).data.map Char.toLower).asString = w
  change (((cs.drop i).take w.length).map Char.toLower).asString = w
  rw [hmap]
  cases w
  rfl

theorem seasonAt_some (cs : List Char) (i : Nat) (m : String)
    (h : seasonAt cs i = some m) :
    ∃ w ∈ seasonWords, seasonMatchAt cs i w = true ∧ lowerStr m = w := by
  rw [seasonAt] at h
  cases hf : seasonWords.find? (fun w => seasonMatchAt cs i w) with
  | none =>
    rw [hf] at h
    simp at h
  | some w =>
    rw [hf] at h
    simp only [Option.map_some'] at h
    have hp := List.find?_some hf
    have hmem := List.mem_of_find?_eq_some hf
    refine ⟨w, hmem, hp, ?_⟩
    rw [← Option.some_inj.mp h]
    exact lowerStr_matched cs i w hp

theorem seasonAt_complete (cs : List Char) (i : Nat) (w : String)
    (hw : w ∈ seasonWords) (h : seasonMatchAt cs i w = true) :
    ∃ m, seasonAt cs i = some m ∧ lowerStr m = w := by
  cases hf : seasonWords.find? (fun x => seasonMatchAt cs i x) with
  | none =>
    exfalso
    have := List.find?_eq_none.mp hf w hw
    simp [h] at this
  | some w0 =>
    have hp := List.find?_some hf
    have hmem := List.mem_of_find?_eq_some hf
    have hww : w0 = w := seasonMatchAt_unique cs i w0 w hmem hw hp h
    subst hww
    refine ⟨((cs.drop i).take w0.length).asString, ?_, lowerStr_matched cs i w0 hp⟩
    rw [seasonAt, hf]
    rfl

theorem mem_uniqueSeasonsOf (msg : String) (s : String) :
    s ∈ uniqueSeasonsOf msg ↔
      (s ∈ seasonWords ∧ ∃ i, seasonMatchAt msg.data i s = true) := by
  rw [uniqueSeasonsOf, mem_firstDedup]
  simp only [List.not_mem_nil, not_false_eq_true, and_true]
  rw [List.mem_map]
  constructor
  · rintro ⟨m, hm, rfl⟩
    rw [findSeasons, List.mem_filterMap] at hm
    obtain ⟨i, _hi, hsome⟩ := hm
    obtain ⟨w, hwmem, hwmatch, hlow⟩ := seasonAt_some msg.data i m hsome
    rw [hlow]
    exact ⟨hwmem, i, hwmatch⟩
  · rintro ⟨hs, i, hmatch⟩
    have hi : i < msg.data.length := seasonMatchAt_lt msg.data i s hs hmatch
    obtain ⟨m, hsome, hlow⟩ := seasonAt_complete msg.data i s hs hmatch
    refine ⟨m, ?_, hlow⟩
    rw [findSeasons, List.mem_filterMap]
    exact ⟨i, List.mem_range.mpr hi, hsome⟩

/-- C7: when a message mentions two or more distinct season words (among
winter, summer, spring, fall, autumn, case-insensitively, delimited by
word boundaries), the season-conflict check ends the turn with a reply
listing exactly the distinct lowercased seasons mentioned and asking
which season the user is planning to travel in: the reply equality gives
the exact text, the listed seasons are duplicate-free, and a season is
listed iff it occurs in the message. -/
theorem season_conflict_check (message : String)
    (h : 2 ≤ (uniqueSeasonsOf message).length) :
    seasonConflictReply message
      = some ("I notice you mentioned multiple seasons ("
          ++ joinComma (uniqueSeasonsOf message)
          ++ "). Which season are you planning to travel in?")
    ∧ (uniqueSeasonsOf message).Nodup
    ∧ (∀ s : String, s ∈ uniqueSeasonsOf message ↔
        (s ∈ seasonWords ∧ ∃ i, seasonMatchAt message.data i s = true)) := by
  refine ⟨?_, nodup_firstDedup _ _, fun s => mem_uniqueSeasonsOf message s⟩
  rw [seasonConflictReply,
    if_pos (show 1 < (uniqueSeasonsOf message).length from h)]

/-- Concrete witness for C7: "winter or summer" triggers the conflict
reply. -/
theorem season_conflict_check_witness :
    2 ≤ (uniqueSeasonsOf "winter or summer").length
    ∧ seasonConflictReply "winter or summer"
      = some ("I notice you mentioned multiple seasons ("
          ++ joinComma (uniqueSeasonsOf "winter or summer")
          ++ "). Which season are you planning to travel in?") :=
  ⟨by decide, (season_conflict_check "winter or summer" (by decide)).1⟩

/-! ## C8 -/

/-- C8: a month name is never accepted as a city: whenever the trimmed
text is exactly a month name or standard three-letter abbreviation,
optionally followed by a period, case-insensitively, parseCity returns
success false with confidence 0 and null data, regardless of the
downstream parser outcome. -/
theorem parseCity_month_guard (text : String) (rest : CityParseResponse)
    (h : ∃ m ∈ monthRegexForms,
      lowerStr (jsTrim text) = m ∨ lowerStr (jsTrim text) = m ++ ".") :
    parseCity text rest
      = { success := false, data := none, confidence := 0, normalized := none } := by
  have hg : monthGuard text = true := by
    rw [monthGuard, List.any_eq_true]
    obtain ⟨m, hm, hcase⟩ := h
    refine ⟨m, hm, ?_⟩
    rcases hcase with h1 | h1 <;> simp [h1]
  simp [parseCity, hg]

/-- Concrete witness for C8: "May." is rejected even when the downstream
cascade would have returned a city. -/
theorem parseCity_month_guard_witness :
    parseCity "May."
      { success := true, data := none, confidence := 1, normalized := some "May" }
      = { success := false, data := none, confidence := 0, normalized := none } :=
  parseCity_month_guard "May." _ ⟨"may", by decide, Or.inr (by decide)⟩

/-! ## C9 -/

/-- C9: clarifierLLM never returns an empty question, and whenever the
LLM call threw, returned an empty reply, failed to mention every missing
slot name, or returned provider-error text, the result is exactly the
deterministic fallbackClarifier output, which maps dates+city, dates
alone, city alone, and anything else to the four fixed questions. -/
theorem clarifierLLM_fallback (missing : List String) (llm : Option String)
    (h : clarifierLLMFailed missing llm = true) :
    clarifierLLM missing llm = fallbackClarifier missing
    ∧ 0 < (clarifierLLM missing llm).length
    ∧ ((missing.map lowerStr).contains "dates" = true →
        (missing.map lowerStr).contains "city" = true →
        fallbackClarifier missing = "Could you share the city and month/dates?")
    ∧ ((missing.map lowerStr).contains "dates" = true →
        (missing.map lowerStr).contains "city" = false →
        fallbackClarifier missing = "Which month or travel dates?")
    ∧ ((missing.map lowerStr).contains "dates" = false →
        (missing.map lowerStr).contains "city" = true →
        fallbackClarifier missing = "Which city are you asking about?")
    ∧ ((missing.map lowerStr).contains "dates" = false →
        (missing.map lowerStr).contains "city" = false →
        fallbackClarifier missing = "Could you provide more details about your travel plans?") := by
  have hfb : clarifierLLM missing llm = fallbackClarifier missing := by
    cases llm with
    | none => rfl
    | some raw =>
      simp only [clarifierLLMFailed] at h
      have hC : (decide (0 < (jsTrim raw).length)
          && missing.all (fun m => containsSub (lowerStr (jsTrim raw)) (lowerStr m))
          && !(providerErrorB (lowerStr (jsTrim raw)))) = false := by
        cases hq : (jsTrim raw == "") with
        | true =>
          have hz : jsTrim raw = "" := by simpa using hq
          rw [hz]
          have hlen : (decide (0 < ("" : String).length)) = false := by decide
          simp [hlen]
        | false =>
          cases hall : missing.all (fun m => containsSub (lowerStr (jsTrim raw)) (lowerStr m)) with
          | false => simp [hall]
          | true =>
            cases herr : providerErrorB (lowerStr (jsTrim raw)) with
            | true => simp [herr]
            | false =>
              rw [hq, hall, herr] at h
              simp at h
      simp only [clarifierLLM, hC, Bool.false_eq_true, if_false]
  refine ⟨hfb, ?_, ?_, ?_, ?_, ?_⟩
  · rw [hfb, fallbackClarifier]
    split_ifs <;> decide
  · intro hd hc
    simp only [fallbackClarifier, hd, hc]
    decide
  · intro hd hc
    simp only [fallbackClarifier, hd, hc]
    decide
  · intro hd hc
    simp only [fallbackClarifier, hd, hc]
    decide
  · intro hd hc
    simp only [fallbackClarifier, hd, hc]
    decide

/-- Concrete witness for C9: a provider-error reply falls back to the
deterministic city question. -/
theorem clarifierLLM_fallback_witness :
    clarifierLLM ["city"] (some "error") = "Which city are you asking about?" := by
  have h := clarifierLLM_fallback ["city"] (some "error") (by decide)
  rw [h.1]
  exact h.2.2.2.2.1 (by decide) (by decide)

/-! ## C10 -/

/-- C10: the Tavily searchTravelInfo wrapper always returns a
discriminated result: an empty or whitespace-only query yields
no_query; a falsy TAVILY_API_KEY yields no_api_key; and a throwing SDK
call yields an error reason drawn from the fixed set
circuit_breaker_open, auth_error, rate_limited, timeout, network,
unknown_error, chosen by matching the error message. -/
theorem searchTravelInfo_discriminated (query : String) (apiKey : Option String)
    (sdk : Except (Option String) TavilyResponse) (dr : Bool) (crawl : Option String) :
    (jsTrim query = "" →
      searchTravelInfo query apiKey sdk dr crawl = SearchOut.err SearchFailReason.no_query)
    ∧ (jsTrim query ≠ "" → jsTruthyStr apiKey = false →
        searchTravelInfo query apiKey sdk dr crawl = SearchOut.err SearchFailReason.no_api_key)
    ∧ (∀ e, jsTrim query ≠ "" → jsTruthyStr apiKey = true → sdk = Except.error e →
        searchTravelInfo query apiKey sdk dr crawl
          = SearchOut.err (classifyTavilyError (tavilyErrMsg e))
        ∧ classifyTavilyError (tavilyErrMsg e)
            ∈ [SearchFailReason.circuit_breaker_open, SearchFailReason.auth_error,
               SearchFailReason.rate_limited, SearchFailReason.timeout,
               SearchFailReason.network, SearchFailReason.unknown_error]) := by
  refine ⟨?_, ?_, ?_⟩
  · intro hq
    simp [searchTravelInfo, hq]
  · intro hq hk
    have hq' : (jsTrim query == "") = false := by simpa using hq
    simp [searchTravelInfo, hq', hk]
  · intro e hq hk hsdk
    subst hsdk
    have hq' : (jsTrim query == "") = false := by simpa using hq
    refine ⟨by simp [searchTravelInfo, hq', hk], ?_⟩
    rw [classifyTavilyError]
    split_ifs <;> simp

/-- Concrete witnesses for C10: an all-whitespace query, a missing API
key, and a thrown HTTP 429 error. -/
theorem searchTravelInfo_discriminated_witness :
    searchTravelInfo "  " none (Except.error none) false none
        = SearchOut.err SearchFailReason.no_query
    ∧ searchTravelInfo "hotels" none (Except.error none) false none
        = SearchOut.err SearchFailReason.no_api_key
    ∧ searchTravelInfo "hotels" (some "key")
        (Except.error (some "HTTP 429 Too Many Requests")) false none
        = SearchOut.err SearchFailReason.rate_limited := by
  refine ⟨?_, ?_, ?_⟩
  · exact (searchTravelInfo_discriminated "  " none (Except.error none) false none).1 (by decide)
  · exact (searchTravelInfo_discriminated "hotels" none (Except.error none) false none).2.1
      (by decide) (by decide)
  · have h := (searchTravelInfo_discriminated "hotels" (some "key")
      (Except.error (some "HTTP 429 Too Many Requests")) false none).2.2
      (some "HTTP 429 Too Many Requests") (by decide) (by decide) rfl
    rw [h.1]
    decide

/-- Witness for the amended C3: a genuine context switch is detected. -/
theorem isContextSwitchQuery_spec_witness :
    isContextSwitchQuery "what are the best beaches in bali" "weather in tokyo" = true := by
  refine (isContextSwitchQuery_spec _ _).mpr
    ⟨by decide, by decide, ⟨"what", by decide, by decide⟩, by decide, ?_⟩
  have hc : overlapCounts (jsTrim (lowerStr "what are the best beaches in bali"))
      (jsTrim (lowerStr "weather in tokyo")) = (0, 6) := by decide
  rw [hc]
  norm_num

end Voyant
